import Mathlib

/-!
# Verification of the expense-tracker CRUD core

Shallow embedding of `src/expense_tracker.py` (class `ExpenseTracker`) and the
serialization round-trip of `src/aws_client.py` (class `AWSClient`).

Modelling conventions:
* Python `float` amounts are modelled as exact rationals (`ℚ`); `round(x, 2)`
  (banker's rounding to two decimal places) is modelled by `round2` below,
  with round-half-to-even tie behaviour matching Python's `round`.
* Python `str.strip()` is modelled by `pyStrip` (drop leading and trailing
  whitespace characters).
* Python string comparison (used to sort by `created_at`) is lexicographic
  comparison of the character sequences, i.e. the lexicographic order on
  `List Char`.
* `datetime.now()` outputs (`date`, `created_at`) are inputs of the model,
  since they come from the environment.
* The outcome of the remote S3 upload (`upload_expenses_to_s3` returning
  True/False) is an input `uploadOk : Bool` of each mutating operation;
  whether an upload was attempted is recorded in the result so that
  "no snapshot write attempted" is expressible.
* Python `dict` (insertion-ordered) is modelled as an association list.
-/

/-- An expense record, as built by `ExpenseTracker.add_expense`
(src/expense_tracker.py lines 66-73). -/
structure Expense where
  id : ℤ
  description : String
  amount : ℚ
  category : String
  date : String
  created_at : String
deriving DecidableEq, Repr

/-- Python `str.strip()`: remove leading and trailing whitespace. -/
def pyStrip (s : String) : String :=
  ⟨((s.data.dropWhile Char.isWhitespace).reverse.dropWhile Char.isWhitespace).reverse⟩

/-- Round-half-to-even to the nearest integer, as Python's builtin `round`
does on the (exact) value. -/
def roundHalfEven (q : ℚ) : ℤ :=
  if q - ⌊q⌋ < 1/2 then ⌊q⌋
  else if 1/2 < q - ⌊q⌋ then ⌊q⌋ + 1
  else if ⌊q⌋ % 2 = 0 then ⌊q⌋ else ⌊q⌋ + 1

/-- Python `round(q, 2)`: round to two decimal places, ties to even. -/
def round2 (q : ℚ) : ℚ := (roundHalfEven (q * 100) : ℚ) / 100

/-- Result of `add_expense`: the new `self.expenses`, the returned bool, and
whether an S3 upload was attempted. -/
structure AddResult where
  expenses : List Expense
  ok : Bool
  uploadAttempted : Bool
deriving DecidableEq, Repr

/-- Model of `ExpenseTracker.add_expense` (src/expense_tracker.py lines 43-95).
Validates `amount <= 0` and `not description.strip()`; on success builds the
record with `id = len(self.expenses) + 1`, appends it, and uploads; if the
upload fails, `self.expenses.pop()` removes the last element. -/
def addExpense (expenses : List Expense) (description : String) (amount : ℚ)
    (category : String) (date created_at : String) (uploadOk : Bool) : AddResult :=
  if amount ≤ 0 then ⟨expenses, false, false⟩
  else if pyStrip description = "" then ⟨expenses, false, false⟩
  else
    let expense : Expense :=
      { id := (expenses.length : ℤ) + 1
        description := pyStrip description
        amount := round2 amount
        category := pyStrip category
        date := date
        created_at := created_at }
    let expenses' := expenses ++ [expense]
    if uploadOk then ⟨expenses', true, true⟩
    else ⟨expenses'.dropLast, false, true⟩

/-- The search-and-pop loop of `ExpenseTracker.delete_expense`
(src/expense_tracker.py lines 161-166): finds the first record whose `id`
matches and removes it in place, returning the removed record and the
remaining list; `none` when no record matches. -/
def popFirst (expenses : List Expense) (expense_id : ℤ) :
    Option (Expense × List Expense) :=
  match expenses with
  | [] => none
  | e :: rest =>
    if e.id = expense_id then some (e, rest)
    else
      match popFirst rest expense_id with
      | none => none
      | some (d, rest') => some (d, e :: rest')

/-- Result of `delete_expense`: the new `self.expenses`, the returned bool,
and whether an S3 upload was attempted. -/
structure DeleteResult where
  expenses : List Expense
  ok : Bool
  uploadAttempted : Bool
deriving DecidableEq, Repr

/-- Model of `ExpenseTracker.delete_expense` (src/expense_tracker.py lines 150-189).
Pops the first record with matching id; if none, returns False with the list
unchanged; otherwise uploads, and on upload failure re-adds the removed
record with `self.expenses.append(expense_to_delete)`. -/
def deleteExpense (expenses : List Expense) (expense_id : ℤ)
    (uploadOk : Bool) : DeleteResult :=
  match popFirst expenses expense_id with
  | none => ⟨expenses, false, false⟩
  | some (deleted, remaining) =>
    if uploadOk then ⟨remaining, true, true⟩
    else ⟨remaining ++ [deleted], false, true⟩

/-- One step of the category-grouping loop of `get_expense_summary`
(src/expense_tracker.py lines 211-217): `categories[category]` is created as
`{count: 0, amount: 0}` when absent, then `count += 1; amount += amount`.
Insertion order of the Python dict is kept by the association list. -/
def updateCat : List (String × ℕ × ℚ) → String → ℚ → List (String × ℕ × ℚ)
  | [], c, a => [(c, 1, a)]
  | (c', n, s) :: rest, c, a =>
    if c' = c then (c', n + 1, s + a) :: rest
    else (c', n, s) :: updateCat rest c a

/-- Association-list lookup for the categories mapping. -/
def lookupCat : List (String × ℕ × ℚ) → String → Option (ℕ × ℚ)
  | [], _ => none
  | (c', v) :: rest, c => if c' = c then some v else lookupCat rest c

/-- Ordering used for `recent_expenses`: Python's
`sorted(..., key=..., reverse=True)` on the `created_at` strings, i.e.
descending lexicographic order of the character sequences. -/
def recentRel (e1 e2 : Expense) : Prop :=
  e2.created_at.data ≤ e1.created_at.data

instance : DecidableRel recentRel := fun e1 e2 =>
  inferInstanceAs (Decidable (e2.created_at.data ≤ e1.created_at.data))

instance : IsTotal Expense recentRel :=
  ⟨fun a b => (le_total b.created_at.data a.created_at.data).imp id id⟩

instance : IsTrans Expense recentRel :=
  ⟨fun _ _ _ h1 h2 => le_trans h2 h1⟩

/-- The summary dict returned by `get_expense_summary`
(src/expense_tracker.py lines 200-231). -/
structure Summary where
  total_expenses : ℕ
  total_amount : ℚ
  categories : List (String × ℕ × ℚ)
  recent_expenses : List Expense
deriving DecidableEq, Repr

/-- Model of `ExpenseTracker.get_expense_summary` (src/expense_tracker.py lines
191-238): zero summary on an empty ledger; otherwise the total is
`round(sum, 2)`, categories are grouped in encounter order, and
`recent_expenses` is the ledger sorted by `created_at` descending (stable
sort, as Python's `sorted`), truncated to 5. -/
def getExpenseSummary (expenses : List Expense) : Summary :=
  if expenses = [] then
    { total_expenses := 0, total_amount := 0, categories := [], recent_expenses := [] }
  else
    let total_amount := (expenses.map (·.amount)).sum
    let categories :=
      expenses.foldl (fun cats e => updateCat cats e.category e.amount) []
    let recent_expenses := (expenses.insertionSort recentRel).take 5
    { total_expenses := expenses.length
      total_amount := round2 total_amount
      categories := categories
      recent_expenses := recent_expenses }

/-- The method call `get_expense_summary` seen as a transition on the
tracker state `self.expenses`: the method never assigns to `self.expenses`,
so the state component is returned unchanged. -/
def getExpenseSummaryS (expenses : List Expense) : Summary × List Expense :=
  (getExpenseSummary expenses, expenses)

/-- Arguments of one `add_expense` call, together with the environment
inputs (timestamps, upload outcome). -/
structure AddReq where
  description : String
  amount : ℚ
  category : String
  date : String
  created_at : String
  uploadOk : Bool
deriving DecidableEq, Repr

/-- The ledger after one `add_expense` call. -/
def applyAdd (l : List Expense) (r : AddReq) : List Expense :=
  (addExpense l r.description r.amount r.category r.date r.created_at r.uploadOk).expenses

/-- The ledger after a sequence of `add_expense` calls starting from the
empty ledger. -/
def applyAdds (reqs : List AddReq) : List Expense := reqs.foldl applyAdd []

section Serialization

/-- JSON values, as produced by `json.dumps` / consumed by `json.loads`.
Python distinguishes `int` and `float` values; amounts are modelled as exact
rationals throughout. -/
inductive Json where
  | str (s : String)
  | int (n : ℤ)
  | num (q : ℚ)
  | arr (xs : List Json)
  | obj (fields : List (String × Json))

/-- The JSON object `json.dumps` produces for one expense dict
(src/aws_client.py line 65: the dict built at src/expense_tracker.py lines
66-73, keys in insertion order). -/
def expenseToJson (e : Expense) : Json :=
  .obj [("id", .int e.id),
        ("description", .str e.description),
        ("amount", .num e.amount),
        ("category", .str e.category),
        ("date", .str e.date),
        ("created_at", .str e.created_at)]

/-- The JSON array written by `AWSClient.upload_expenses_to_s3`
(src/aws_client.py lines 63-76). -/
def expensesToJson (l : List Expense) : Json := .arr (l.map expenseToJson)

/-- Reading one expense record back from its parsed JSON object, as
`AWSClient.download_expenses_from_s3` (src/aws_client.py lines 100-110)
yields it via `json.loads`: each field is read back at its key with its
original type. -/
def expenseFromJson : Json → Option Expense
  | .obj [("id", .int i), ("description", .str d), ("amount", .num a),
          ("category", .str c), ("date", .str dt), ("created_at", .str ca)] =>
    some { id := i, description := d, amount := a, category := c,
           date := dt, created_at := ca }
  | _ => none

/-- Parsing the whole snapshot array back into a list of records. -/
def expensesFromJson : Json → Option (List Expense)
  | .arr xs => xs.mapM expenseFromJson
  | _ => none

end Serialization

/-! ## Helper lemmas -/

/-- A validated `add_expense` call is insensitive to everything but the
upload outcome: it appends the freshly built record and, if the upload
fails, `pop()` restores the original list. -/
theorem addExpense_valid (l : List Expense) (d : String) (a : ℚ)
    (c dt ca : String) (ok : Bool) (hA : 0 < a) (hD : pyStrip d ≠ "") :
    addExpense l d a c dt ca ok =
      if ok then
        ⟨l ++ [⟨(l.length : ℤ) + 1, pyStrip d, round2 a, pyStrip c, dt, ca⟩],
         true, true⟩
      else ⟨l, false, true⟩ := by
  unfold addExpense
  rw [if_neg (not_le.mpr hA), if_neg hD]
  cases ok with
  | false => simp
  | true => simp

theorem round2_nonneg (q : ℚ) (h : 0 ≤ q) : 0 ≤ round2 q := by
  unfold round2 roundHalfEven
  have h100 : (0 : ℚ) ≤ q * 100 := by positivity
  have hf : (0 : ℤ) ≤ ⌊q * 100⌋ := Int.floor_nonneg.mpr h100
  have : (0 : ℤ) ≤
      (if q * 100 - ⌊q * 100⌋ < 1/2 then ⌊q * 100⌋
       else if 1/2 < q * 100 - ⌊q * 100⌋ then ⌊q * 100⌋ + 1
       else if ⌊q * 100⌋ % 2 = 0 then ⌊q * 100⌋ else ⌊q * 100⌋ + 1) := by
    split
    · exact hf
    · split
      · omega
      · split
        · exact hf
        · omega
  have hcast : (0 : ℚ) ≤
      ((if q * 100 - ⌊q * 100⌋ < 1/2 then ⌊q * 100⌋
        else if 1/2 < q * 100 - ⌊q * 100⌋ then ⌊q * 100⌋ + 1
        else if ⌊q * 100⌋ % 2 = 0 then ⌊q * 100⌋ else ⌊q * 100⌋ + 1 : ℤ) : ℚ) := by
    exact_mod_cast this
  positivity

theorem round2_intCast (n : ℤ) : round2 (n : ℚ) = n := by
  unfold round2 roundHalfEven
  have h : ((n : ℚ) * 100) = ((n * 100 : ℤ) : ℚ) := by push_cast; ring
  rw [h, Int.floor_intCast]
  norm_num

/-! ## Claim theorems -/

/-- C1: for every ledger and every valid input (positive amount, non-empty
stripped description), if the snapshot write fails, `add_expense` restores
the ledger exactly to its pre-add state (same records, hence same length)
and returns false. -/
theorem addExpense_rollback (l : List Expense) (d : String) (a : ℚ)
    (c dt ca : String) (hA : 0 < a) (hD : pyStrip d ≠ "") :
    (addExpense l d a c dt ca false).expenses = l ∧
    (addExpense l d a c dt ca false).expenses.length = l.length ∧
    (addExpense l d a c dt ca false).ok = false := by
  rw [addExpense_valid l d a c dt ca false hA hD]
  simp

/-- Witness for C1 at a concrete input. -/
theorem addExpense_rollback_witness :
    (addExpense [] "coffee" 5 "Food" "d1" "t1" false).expenses = [] ∧
    (addExpense [] "coffee" 5 "Food" "d1" "t1" false).expenses.length =
      ([] : List Expense).length ∧
    (addExpense [] "coffee" 5 "Food" "d1" "t1" false).ok = false :=
  addExpense_rollback [] "coffee" 5 "Food" "d1" "t1" (by decide) (by decide)

/-- C3: for every ledger and valid input, when the snapshot write succeeds
`add_expense` appends exactly one record — with id = previous length + 1,
description the stripped input, amount `round(amount, 2)` — and returns
true. -/
theorem addExpense_success (l : List Expense) (d : String) (a : ℚ)
    (c dt ca : String) (hA : 0 < a) (hD : pyStrip d ≠ "") :
    (addExpense l d a c dt ca true).expenses =
      l ++ [⟨(l.length : ℤ) + 1, pyStrip d, round2 a, pyStrip c, dt, ca⟩] ∧
    (addExpense l d a c dt ca true).expenses.length = l.length + 1 ∧
    (addExpense l d a c dt ca true).ok = true := by
  rw [addExpense_valid l d a c dt ca true hA hD]
  simp

/-- Witness for C3 at a concrete input. -/
theorem addExpense_success_witness :
    (addExpense [] "coffee" 5 "Food" "d1" "t1" true).expenses =
      [] ++ [⟨((List.length ([] : List Expense)) : ℤ) + 1, pyStrip "coffee",
             round2 5, pyStrip "Food", "d1", "t1"⟩] ∧
    (addExpense [] "coffee" 5 "Food" "d1" "t1" true).expenses.length =
      ([] : List Expense).length + 1 ∧
    (addExpense [] "coffee" 5 "Food" "d1" "t1" true).ok = true :=
  addExpense_success [] "coffee" 5 "Food" "d1" "t1" (by decide) (by decide)

/-- A failed validation short-circuits `add_expense` before any mutation or
upload. -/
theorem addExpense_invalid_eq (l : List Expense) (d : String) (a : ℚ)
    (c dt ca : String) (ok : Bool) (h : a ≤ 0 ∨ pyStrip d = "") :
    addExpense l d a c dt ca ok = ⟨l, false, false⟩ := by
  unfold addExpense
  by_cases hA : a ≤ 0
  · rw [if_pos hA]
  · rw [if_neg hA, if_pos (h.resolve_left hA)]

/-- C8: `add_expense` with a non-positive amount, or with a description that
strips to empty, returns false, leaves the ledger unchanged, and attempts no
snapshot write. -/
theorem addExpense_invalid (l : List Expense) (d : String) (a : ℚ)
    (c dt ca : String) (ok : Bool) (h : a ≤ 0 ∨ pyStrip d = "") :
    (addExpense l d a c dt ca ok).expenses = l ∧
    (addExpense l d a c dt ca ok).ok = false ∧
    (addExpense l d a c dt ca ok).uploadAttempted = false := by
  rw [addExpense_invalid_eq l d a c dt ca ok h]
  exact ⟨rfl, rfl, rfl⟩

/-- Witness for C8 at a concrete input (whitespace-only description). -/
theorem addExpense_invalid_witness :
    ((addExpense [] "   " 5 "Food" "d1" "t1" true).expenses = [] ∧
     (addExpense [] "   " 5 "Food" "d1" "t1" true).ok = false ∧
     (addExpense [] "   " 5 "Food" "d1" "t1" true).uploadAttempted = false) ∧
    ((addExpense [] "x" (-3) "Food" "d1" "t1" true).expenses = [] ∧
     (addExpense [] "x" (-3) "Food" "d1" "t1" true).ok = false ∧
     (addExpense [] "x" (-3) "Food" "d1" "t1" true).uploadAttempted = false) :=
  ⟨addExpense_invalid [] "   " 5 "Food" "d1" "t1" true (Or.inr (by decide)),
   addExpense_invalid [] "x" (-3) "Food" "d1" "t1" true (Or.inl (by norm_num))⟩

theorem popFirst_eq_none_iff (l : List Expense) (i : ℤ) :
    popFirst l i = none ↔ ∀ e ∈ l, e.id ≠ i := by
  induction l with
  | nil => simp [popFirst]
  | cons e rest ih =>
    unfold popFirst
    by_cases h : e.id = i
    · simp only [if_pos h]
      constructor
      · intro hc
        cases hc
      · intro hall
        exact absurd h (hall e (List.mem_cons_self e rest))
    · simp only [if_neg h]
      cases hp : popFirst rest i with
      | none =>
        simp only [List.mem_cons, forall_eq_or_imp]
        constructor
        · intro _
          exact ⟨h, ih.mp hp⟩
        · intro _
          trivial
      | some p =>
        obtain ⟨d, r⟩ := p
        simp only [List.mem_cons, forall_eq_or_imp]
        constructor
        · intro hc
          cases hc
        · rintro ⟨-, hall⟩
          rw [ih.mpr hall] at hp
          cases hp

theorem popFirst_eq_some (l : List Expense) (i : ℤ) (e : Expense)
    (rest : List Expense) (h : popFirst l i = some (e, rest)) :
    ∃ pre post, l = pre ++ e :: post ∧ rest = pre ++ post ∧ e.id = i ∧
      ∀ y ∈ pre, y.id ≠ i := by
  induction l generalizing rest with
  | nil => simp [popFirst] at h
  | cons x tail ih =>
    unfold popFirst at h
    by_cases hx : x.id = i
    · rw [if_pos hx] at h
      have hinj := Option.some.inj h
      have he : x = e := congrArg Prod.fst hinj
      have hr : tail = rest := congrArg Prod.snd hinj
      subst he
      subst hr
      exact ⟨[], tail, by simp, by simp, hx, by simp⟩
    · rw [if_neg hx] at h
      cases hp : popFirst tail i with
      | none =>
        rw [hp] at h
        cases h
      | some p =>
        obtain ⟨d, rest'⟩ := p
        rw [hp] at h
        have hinj := Option.some.inj h
        have hd : d = e := congrArg Prod.fst hinj
        have hrest : x :: rest' = rest := congrArg Prod.snd hinj
        subst hd
        obtain ⟨pre, post, h1, h2, h3, h4⟩ := ih rest' hp
        refine ⟨x :: pre, post, by simp [h1], ?_, h3, ?_⟩
        · rw [← hrest, h2]
          rfl
        · intro y hy
          rcases List.mem_cons.mp hy with hy | hy
          · exact hy ▸ hx
          · exact h4 y hy

theorem popFirst_isSome (l : List Expense) (i : ℤ)
    (h : ∃ e ∈ l, e.id = i) : (popFirst l i).isSome := by
  cases hp : popFirst l i with
  | none =>
    obtain ⟨e, he, hid⟩ := h
    exact absurd hid ((popFirst_eq_none_iff l i).mp hp e he)
  | some p => rfl

/-- The record `popFirst` yields is a record of the original list: the list is a
permutation of the removed record consed onto the remainder. -/
theorem popFirst_perm (l : List Expense) (i : ℤ) (e : Expense)
    (rest : List Expense) (h : popFirst l i = some (e, rest)) :
    l.Perm (e :: rest) := by
  obtain ⟨pre, post, h1, h2, -, -⟩ := popFirst_eq_some l i e rest h
  subst h1
  subst h2
  exact List.perm_middle

/-- C6: `delete_expense` with an id no record carries returns false and
leaves the ledger unchanged (attempting no write); with an id some record
carries and a successful write, it removes exactly the first matching
record — the ledger splits as `pre ++ x :: post` with no match in `pre`,
and becomes `pre ++ post` — the length drops by one, and it returns true. -/
theorem deleteExpense_spec (l : List Expense) (i : ℤ) :
    ((∀ e ∈ l, e.id ≠ i) → ∀ ok, deleteExpense l i ok = ⟨l, false, false⟩) ∧
    ((∃ e ∈ l, e.id = i) → ∃ pre x post,
        l = pre ++ x :: post ∧ x.id = i ∧ (∀ y ∈ pre, y.id ≠ i) ∧
        deleteExpense l i true = ⟨pre ++ post, true, true⟩ ∧
        (deleteExpense l i true).expenses.length + 1 = l.length) := by
  constructor
  · intro hall ok
    unfold deleteExpense
    rw [(popFirst_eq_none_iff l i).mpr hall]
  · intro hex
    have hsome := popFirst_isSome l i hex
    cases hp : popFirst l i with
    | none => rw [hp] at hsome; cases hsome
    | some p =>
      obtain ⟨e, rest⟩ := p
      obtain ⟨pre, post, h1, h2, h3, h4⟩ := popFirst_eq_some l i e rest hp
      have hdel : deleteExpense l i true = ⟨rest, true, true⟩ := by
        unfold deleteExpense
        rw [hp]
        rfl
      refine ⟨pre, e, post, h1, h3, h4, ?_, ?_⟩
      · rw [hdel, h2]
      · rw [hdel, h2, h1]
        simp
        omega

/-- Witness for C6 at concrete inputs: id 7 is absent from a two-record
ledger; id 1 is carried by its first record. -/
theorem deleteExpense_spec_witness :
    (deleteExpense [⟨1, "a", 1, "Other", "x", "t1"⟩,
                    ⟨2, "b", 2, "Other", "x", "t2"⟩] 7 true =
      ⟨[⟨1, "a", 1, "Other", "x", "t1"⟩, ⟨2, "b", 2, "Other", "x", "t2"⟩],
       false, false⟩) ∧
    (∃ pre x post,
        [⟨1, "a", 1, "Other", "x", "t1"⟩, ⟨2, "b", 2, "Other", "x", "t2"⟩] =
          pre ++ x :: post ∧ x.id = 1 ∧ (∀ y ∈ pre, y.id ≠ 1) ∧
        deleteExpense [⟨1, "a", 1, "Other", "x", "t1"⟩,
                       ⟨2, "b", 2, "Other", "x", "t2"⟩] 1 true =
          ⟨pre ++ post, true, true⟩ ∧
        (deleteExpense [⟨1, "a", 1, "Other", "x", "t1"⟩,
                        ⟨2, "b", 2, "Other", "x", "t2"⟩] 1 true).expenses.length + 1 =
          ([⟨1, "a", 1, "Other", "x", "t1"⟩, ⟨2, "b", 2, "Other", "x", "t2"⟩] :
            List Expense).length) :=
  ⟨(deleteExpense_spec _ 7).1 (by decide) true,
   (deleteExpense_spec _ 1).2 ⟨⟨1, "a", 1, "Other", "x", "t1"⟩, by decide, rfl⟩⟩

/-- C2 fails as stated: on a failed write, `delete_expense` re-inserts the
removed record at the END (`self.expenses.append`), not at its original
position. Deleting id 1 from a two-record ledger with a failing write
leaves `[second, first]`, not the pre-delete `[first, second]`. -/
theorem deleteExpense_rollback_cex :
    (deleteExpense [⟨1, "a", 1, "Other", "x", "t1"⟩,
                    ⟨2, "b", 2, "Other", "x", "t2"⟩] 1 false).expenses =
      [⟨2, "b", 2, "Other", "x", "t2"⟩, ⟨1, "a", 1, "Other", "x", "t1"⟩] ∧
    (deleteExpense [⟨1, "a", 1, "Other", "x", "t1"⟩,
                    ⟨2, "b", 2, "Other", "x", "t2"⟩] 1 false).expenses ≠
      [⟨1, "a", 1, "Other", "x", "t1"⟩, ⟨2, "b", 2, "Other", "x", "t2"⟩] ∧
    (deleteExpense [⟨1, "a", 1, "Other", "x", "t1"⟩,
                    ⟨2, "b", 2, "Other", "x", "t2"⟩] 1 false).ok = false := by
  refine ⟨by decide, by decide, by decide⟩

/-- C2 amended: when the snapshot write fails after removing a record,
`delete_expense` re-appends the removed record at the end — the resulting
ledger is a permutation of the pre-delete ledger (same records, same
length, but not necessarily the same order) — and returns false. -/
theorem deleteExpense_rollback (l : List Expense) (i : ℤ) (e : Expense)
    (rest : List Expense) (h : popFirst l i = some (e, rest)) :
    (deleteExpense l i false).expenses = rest ++ [e] ∧
    (deleteExpense l i false).expenses.Perm l ∧
    (deleteExpense l i false).expenses.length = l.length ∧
    (deleteExpense l i false).ok = false := by
  have hdel : deleteExpense l i false = ⟨rest ++ [e], false, true⟩ := by
    unfold deleteExpense
    rw [h]
    rfl
  have hperm : (rest ++ [e]).Perm l :=
    (List.perm_append_singleton e rest).trans (popFirst_perm l i e rest h).symm
  exact ⟨by rw [hdel], by rw [hdel]; exact hperm,
         by rw [hdel]; exact hperm.length_eq, by rw [hdel]⟩

/-- Witness for the amended C2 at a concrete input. -/
theorem deleteExpense_rollback_witness :
    (deleteExpense [⟨1, "a", 1, "Other", "x", "t1"⟩,
                    ⟨2, "b", 2, "Other", "x", "t2"⟩] 1 false).expenses =
      [⟨2, "b", 2, "Other", "x", "t2"⟩] ++ [⟨1, "a", 1, "Other", "x", "t1"⟩] ∧
    (deleteExpense [⟨1, "a", 1, "Other", "x", "t1"⟩,
                    ⟨2, "b", 2, "Other", "x", "t2"⟩] 1 false).expenses.Perm
      [⟨1, "a", 1, "Other", "x", "t1"⟩, ⟨2, "b", 2, "Other", "x", "t2"⟩] ∧
    (deleteExpense [⟨1, "a", 1, "Other", "x", "t1"⟩,
                    ⟨2, "b", 2, "Other", "x", "t2"⟩] 1 false).expenses.length =
      ([⟨1, "a", 1, "Other", "x", "t1"⟩, ⟨2, "b", 2, "Other", "x", "t2"⟩] :
        List Expense).length ∧
    (deleteExpense [⟨1, "a", 1, "Other", "x", "t1"⟩,
                    ⟨2, "b", 2, "Other", "x", "t2"⟩] 1 false).ok = false :=
  deleteExpense_rollback _ 1 ⟨1, "a", 1, "Other", "x", "t1"⟩
    [⟨2, "b", 2, "Other", "x", "t2"⟩] (by decide)

theorem round2_milli : round2 (1/1000) = 0 := by
  unfold round2 roundHalfEven
  norm_num

/-- C4 fails as stated: validation checks `amount > 0` on the raw input,
but the stored amount is `round(amount, 2)`, which is 0 for
`amount = 0.001`. The add succeeds and the ledger then contains a record
whose amount is not strictly positive. -/
theorem addExpense_amount_cex :
    (addExpense [] "c" (1/1000) "Food" "d" "t" true).ok = true ∧
    ∃ e ∈ (addExpense [] "c" (1/1000) "Food" "d" "t" true).expenses,
      ¬ 0 < e.amount := by
  have hv := addExpense_valid [] "c" (1/1000) "Food" "d" "t" true
    (by norm_num) (by decide)
  rw [if_pos rfl] at hv
  rw [hv]
  refine ⟨rfl, ⟨(List.length ([] : List Expense) : ℤ) + 1, pyStrip "c",
    round2 (1/1000), pyStrip "Food", "d", "t"⟩, by simp, ?_⟩
  simp only [round2_milli]
  norm_num

/-- Every `add_expense` call either leaves the ledger unchanged (failed
validation, or rolled-back failed write) or appends exactly the freshly
built record. -/
theorem addExpense_expenses_cases (l : List Expense) (d : String) (a : ℚ)
    (c dt ca : String) (ok : Bool) :
    (addExpense l d a c dt ca ok).expenses = l ∨
    (addExpense l d a c dt ca ok).expenses =
      l ++ [⟨(l.length : ℤ) + 1, pyStrip d, round2 a, pyStrip c, dt, ca⟩] := by
  unfold addExpense
  by_cases hA : a ≤ 0
  · rw [if_pos hA]
    exact Or.inl rfl
  by_cases hD : pyStrip d = ""
  · rw [if_neg hA, if_pos hD]
    exact Or.inl rfl
  rw [if_neg hA, if_neg hD]
  cases ok with
  | false => exact Or.inl (by simp)
  | true => exact Or.inr (by simp)

theorem applyAdd_preserves (P : Expense → Prop) (l : List Expense) (r : AddReq)
    (hP : P ⟨(l.length : ℤ) + 1, pyStrip r.description, round2 r.amount,
             pyStrip r.category, r.date, r.created_at⟩)
    (h : ∀ e ∈ l, P e) : ∀ e ∈ applyAdd l r, P e := by
  unfold applyAdd
  rcases addExpense_expenses_cases l r.description r.amount r.category
      r.date r.created_at r.uploadOk with hc | hc
  · rw [hc]
    exact h
  · rw [hc]
    intro e he
    rcases List.mem_append.mp he with he | he
    · exact h e he
    · rw [List.mem_singleton.mp he]
      exact hP

theorem foldl_applyAdd_amount_desc (reqs : List AddReq) :
    ∀ l, (∀ e ∈ l, 0 ≤ e.amount ∧ e.description ≠ "") →
      ∀ e ∈ reqs.foldl applyAdd l, 0 ≤ e.amount ∧ e.description ≠ "" := by
  induction reqs with
  | nil =>
    intro l h
    simpa using h
  | cons r rs ih =>
    intro l h
    rw [List.foldl_cons]
    refine ih (applyAdd l r) ?_
    unfold applyAdd
    rcases addExpense_expenses_cases l r.description r.amount r.category
        r.date r.created_at r.uploadOk with hc | hc
    · rw [hc]
      exact h
    · by_cases hA : r.amount ≤ 0
      · rw [addExpense_invalid_eq l r.description r.amount r.category
            r.date r.created_at r.uploadOk (Or.inl hA)]
        exact h
      by_cases hD : pyStrip r.description = ""
      · rw [addExpense_invalid_eq l r.description r.amount r.category
            r.date r.created_at r.uploadOk (Or.inr hD)]
        exact h
      rw [hc]
      intro e he
      rcases List.mem_append.mp he with he | he
      · exact h e he
      · rw [List.mem_singleton.mp he]
        exact ⟨round2_nonneg _ (le_of_lt (not_le.mp hA)), hD⟩

/-- C4 amended: after any sequence of `add_expense` calls on an initially
empty ledger, every stored record has a non-empty description and a
NON-NEGATIVE amount. Strict positivity of the stored amount is false:
`round(amount, 2)` can be 0 for inputs in (0, 0.005] that pass validation
(see the counterexample). -/
theorem expenses_invariant (reqs : List AddReq) (e : Expense)
    (he : e ∈ applyAdds reqs) : 0 ≤ e.amount ∧ e.description ≠ "" := by
  refine foldl_applyAdd_amount_desc reqs [] (by simp) e ?_
  exact he

/-- Witness for the amended C4 at a concrete input. -/
theorem expenses_invariant_witness :
    0 ≤ (Expense.mk 1 (pyStrip "a") (round2 5) (pyStrip "Food") "d" "t").amount ∧
    (Expense.mk 1 (pyStrip "a") (round2 5) (pyStrip "Food") "d" "t").description ≠ "" := by
  refine expenses_invariant [⟨"a", 5, "Food", "d", "t", true⟩]
    ⟨1, pyStrip "a", round2 5, pyStrip "Food", "d", "t"⟩ ?_
  have hv := addExpense_valid [] "a" (5 : ℚ) "Food" "d" "t" true
    (by norm_num) (by decide)
  rw [if_pos rfl] at hv
  unfold applyAdds
  rw [List.foldl_cons, List.foldl_nil]
  unfold applyAdd
  rw [hv]
  simp

/-- State after `add "a" 1`, starting from the empty ledger (write ok). -/
def c5Step1 : AddResult := addExpense [] "a" 1 "Other" "x" "t1" true

/-- State after a further `add "b" 1` (write ok). -/
def c5Step2 : AddResult := addExpense c5Step1.expenses "b" 1 "Other" "x" "t2" true

/-- State after `delete 1` (write ok). -/
def c5Step3 : DeleteResult := deleteExpense c5Step2.expenses 1 true

/-- State after a further `add "c" 1` (write ok). -/
def c5Step4 : AddResult := addExpense c5Step3.expenses "c" 1 "Other" "x" "t3" true

/-- C5 fails as stated: after the successful sequence add, add, delete 1,
add (every operation returning true), the ledger's ids are [2, 2] — id
generation as `length + 1` reuses the id of a surviving record after a
delete. -/
theorem ids_unique_cex :
    c5Step1.ok = true ∧ c5Step2.ok = true ∧ c5Step3.ok = true ∧
    c5Step4.ok = true ∧
    c5Step4.expenses.map (·.id) = [2, 2] ∧
    ¬ (c5Step4.expenses.map (·.id)).Nodup := by
  refine ⟨by decide, by decide, by decide, by decide, by decide, by decide⟩

/-- The ids of a ledger reachable by adds alone are exactly 1..length. -/
def idsOk (l : List Expense) : Prop :=
  l.map (·.id) = (List.range' 1 l.length).map (Nat.cast : ℕ → ℤ)

theorem applyAdd_idsOk (l : List Expense) (r : AddReq) (h : idsOk l) :
    idsOk (applyAdd l r) := by
  unfold applyAdd
  rcases addExpense_expenses_cases l r.description r.amount r.category
      r.date r.created_at r.uploadOk with hc | hc
  · rw [hc]
    exact h
  · rw [hc]
    unfold idsOk at h ⊢
    simp only [List.map_append, List.length_append, List.length_singleton,
      List.map_cons, List.map_nil]
    rw [h, List.range'_concat 1 l.length]
    rw [List.map_append]
    congr 1
    simp only [List.map_cons, List.map_nil]
    congr 1
    push_cast
    ring

theorem foldl_applyAdd_idsOk (reqs : List AddReq) :
    ∀ l, idsOk l → idsOk (reqs.foldl applyAdd l) := by
  induction reqs with
  | nil =>
    intro l h
    simpa using h
  | cons r rs ih =>
    intro l h
    rw [List.foldl_cons]
    exact ih (applyAdd l r) (applyAdd_idsOk l r h)

/-- C5 amended: after any sequence of `add_expense` calls ALONE (no
deletes) starting from the empty ledger, the record ids are exactly
1..length, hence pairwise distinct. With deletes interleaved the property
fails (see the counterexample): `length + 1` generation reuses ids. -/
theorem ids_nodup_addsOnly (reqs : List AddReq) :
    ((applyAdds reqs).map (·.id)).Nodup := by
  have h : idsOk (applyAdds reqs) :=
    foldl_applyAdd_idsOk reqs [] (by simp [idsOk])
  unfold idsOk at h
  unfold applyAdds at h ⊢
  rw [h]
  exact List.Nodup.map Nat.cast_injective
    (List.nodup_range' 1 (List.foldl applyAdd [] reqs).length)

theorem expenseFromJson_expenseToJson (e : Expense) :
    expenseFromJson (expenseToJson e) = some e := rfl

/-- C9: serializing any list of N expense records to the JSON storage
format and parsing it back yields the same N records, every field value
identical. -/
theorem serialize_roundtrip (l : List Expense) :
    expensesFromJson (expensesToJson l) = some l := by
  show (l.map expenseToJson).mapM expenseFromJson = some l
  induction l with
  | nil => rfl
  | cons e t ih =>
    rw [List.map_cons, List.mapM_cons, expenseFromJson_expenseToJson, ih]
    rfl

/-- On a non-empty ledger, `get_expense_summary` returns the else-branch
record of src/expense_tracker.py lines 207-231. -/
theorem getExpenseSummary_ne (l : List Expense) (h : l ≠ []) :
    getExpenseSummary l =
      { total_expenses := l.length
        total_amount := round2 ((l.map (·.amount)).sum)
        categories := l.foldl (fun cats e => updateCat cats e.category e.amount) []
        recent_expenses := (l.insertionSort recentRel).take 5 } := by
  unfold getExpenseSummary
  rw [if_neg h]

theorem round2_natCast (n : ℕ) : round2 (n : ℚ) = n := by
  have h := round2_intCast (n : ℤ)
  push_cast at h
  exact h

/-- The first expense of the example ledger of C7. -/
def c7Food1 : Expense := ⟨1, "x", 10, "Food", "d", "t1"⟩

/-- The second expense of the example ledger of C7. -/
def c7Transport : Expense := ⟨2, "y", 15, "Transport", "d", "t2"⟩

/-- The third expense of the example ledger of C7. -/
def c7Food2 : Expense := ⟨3, "z", 8, "Food", "d", "t3"⟩

/-- C7: the summary of an empty ledger is all-zero with empty mappings; on
the example ledger [Food 10, Transport 15, Food 8] the total is 33 with
Food ↦ (2, 18) and Transport ↦ (1, 15) and the recent list is the three
records by descending `created_at`; and for every ledger the recent list
has at most 5 records and is sorted by `created_at` descending. -/
theorem summary_spec :
    getExpenseSummary [] =
      { total_expenses := 0, total_amount := 0, categories := [],
        recent_expenses := [] } ∧
    (getExpenseSummary [c7Food1, c7Transport, c7Food2]).total_amount = 33 ∧
    (getExpenseSummary [c7Food1, c7Transport, c7Food2]).categories =
      [("Food", 2, 18), ("Transport", 1, 15)] ∧
    (getExpenseSummary [c7Food1, c7Transport, c7Food2]).recent_expenses =
      [c7Food2, c7Transport, c7Food1] ∧
    ∀ l : List Expense,
      (getExpenseSummary l).recent_expenses.length ≤ 5 ∧
      List.Sorted recentRel (getExpenseSummary l).recent_expenses := by
  refine ⟨rfl, ?_, ?_, ?_, ?_⟩
  · rw [getExpenseSummary_ne _ (by simp)]
    show round2 (([c7Food1, c7Transport, c7Food2].map (·.amount)).sum) = 33
    have hs : (([c7Food1, c7Transport, c7Food2].map (·.amount)).sum : ℚ) =
        ((33 : ℕ) : ℚ) := by
      simp [c7Food1, c7Transport, c7Food2]
      norm_num
    rw [hs, round2_natCast]
    norm_num
  · rw [getExpenseSummary_ne _ (by simp)]
    show List.foldl (fun cats e => updateCat cats e.category e.amount) []
        [c7Food1, c7Transport, c7Food2] = [("Food", 2, 18), ("Transport", 1, 15)]
    norm_num [c7Food1, c7Transport, c7Food2, updateCat]
  · rw [getExpenseSummary_ne _ (by simp)]
    show (([c7Food1, c7Transport, c7Food2].insertionSort recentRel).take 5) =
      [c7Food2, c7Transport, c7Food1]
    decide
  · intro l
    by_cases h : l = []
    · subst h
      exact ⟨by simp [getExpenseSummary], by simp [getExpenseSummary]⟩
    · rw [getExpenseSummary_ne _ h]
      constructor
      · show ((l.insertionSort recentRel).take 5).length ≤ 5
        rw [List.length_take]
        exact min_le_left _ _
      · show List.Sorted recentRel ((l.insertionSort recentRel).take 5)
        exact (List.sorted_insertionSort recentRel l).sublist
          (List.take_sublist 5 _)

theorem lookupCat_updateCat_self (cats : List (String × ℕ × ℚ)) (c : String)
    (a : ℚ) :
    lookupCat (updateCat cats c a) c =
      some (((lookupCat cats c).getD (0, 0)).1 + 1,
            ((lookupCat cats c).getD (0, 0)).2 + a) := by
  induction cats with
  | nil => simp [updateCat, lookupCat]
  | cons p rest ih =>
    obtain ⟨k, n, s⟩ := p
    by_cases hk : k = c
    · subst hk
      simp [updateCat, lookupCat]
    · simp [updateCat, lookupCat, hk, ih]

theorem lookupCat_updateCat_ne (cats : List (String × ℕ × ℚ))
    (c' c : String) (a : ℚ) (h : c' ≠ c) :
    lookupCat (updateCat cats c' a) c = lookupCat cats c := by
  induction cats with
  | nil => simp [updateCat, lookupCat, h]
  | cons p rest ih =>
    obtain ⟨k, n, s⟩ := p
    by_cases hk : k = c'
    · subst hk
      simp [updateCat, lookupCat, h, ih]
    · by_cases hc : k = c
      · subst hc
        simp [updateCat, lookupCat, hk]
      · simp [updateCat, lookupCat, hk, hc, ih]

/-- Running the category loop over `l` starting from an accumulator that
already holds `(n, s)` for category `c` adds the count and (un-rounded)
amount-sum of `c`'s records in `l`. -/
theorem lookupCat_foldl_some (l : List Expense)
    (cats : List (String × ℕ × ℚ)) (c : String) (n : ℕ) (s : ℚ)
    (h : lookupCat cats c = some (n, s)) :
    lookupCat (l.foldl (fun cs e => updateCat cs e.category e.amount) cats) c =
      some (n + (l.filter (fun e => e.category = c)).length,
            s + ((l.filter (fun e => e.category = c)).map (·.amount)).sum) := by
  induction l generalizing cats n s with
  | nil => simp [h]
  | cons e t ih =>
    rw [List.foldl_cons]
    by_cases hc : e.category = c
    · have hstep : lookupCat (updateCat cats e.category e.amount) c =
          some (n + 1, s + e.amount) := by
        rw [hc, lookupCat_updateCat_self, h]
        rfl
      rw [ih _ _ _ hstep]
      rw [List.filter_cons_of_pos (by simpa using hc)]
      simp only [List.length_cons, List.map_cons, List.sum_cons,
        Option.some.injEq, Prod.mk.injEq]
      exact ⟨by omega, by rw [add_assoc]⟩
    · have hstep : lookupCat (updateCat cats e.category e.amount) c =
          some (n, s) := by
        rw [lookupCat_updateCat_ne cats e.category c e.amount hc, h]
      rw [ih _ _ _ hstep]
      rw [List.filter_cons_of_neg (by simpa using hc)]

/-- Running the category loop over `l` starting from an accumulator with no
entry for `c` produces exactly the count and un-rounded amount-sum of `c`'s
records in `l` (and no entry when `l` has none). -/
theorem lookupCat_foldl_none (l : List Expense)
    (cats : List (String × ℕ × ℚ)) (c : String)
    (h : lookupCat cats c = none) :
    lookupCat (l.foldl (fun cs e => updateCat cs e.category e.amount) cats) c =
      if (l.filter (fun e => e.category = c)).length = 0 then none
      else some ((l.filter (fun e => e.category = c)).length,
                 ((l.filter (fun e => e.category = c)).map (·.amount)).sum) := by
  induction l generalizing cats with
  | nil => simp [h]
  | cons e t ih =>
    rw [List.foldl_cons]
    by_cases hc : e.category = c
    · have hstep : lookupCat (updateCat cats e.category e.amount) c =
          some (1, e.amount) := by
        rw [hc, lookupCat_updateCat_self, h]
        simp
      rw [lookupCat_foldl_some t _ c 1 e.amount hstep]
      rw [List.filter_cons_of_pos (by simpa using hc)]
      simp only [List.length_cons, List.map_cons, List.sum_cons]
      rw [if_neg (by omega)]
      simp only [Option.some.injEq, Prod.mk.injEq]
      exact ⟨by omega, trivial⟩
    · have hstep : lookupCat (updateCat cats e.category e.amount) c = none := by
        rw [lookupCat_updateCat_ne cats e.category c e.amount hc, h]
      rw [ih _ hstep]
      rw [List.filter_cons_of_neg (by simpa using hc)]

/-- C10: on any non-empty ledger the summary's total is the 2-decimal
rounding of the un-rounded sum of all amounts, every per-category amount is
the UN-rounded sum of that category's amounts (and the count its number of
records), and the call leaves the ledger state unchanged. -/
theorem summary_totals (l : List Expense) (h : l ≠ []) :
    (getExpenseSummary l).total_amount = round2 ((l.map (·.amount)).sum) ∧
    (∀ c n s, lookupCat (getExpenseSummary l).categories c = some (n, s) →
      s = ((l.filter (fun e => e.category = c)).map (·.amount)).sum ∧
      n = (l.filter (fun e => e.category = c)).length) ∧
    (getExpenseSummaryS l).2 = l := by
  rw [getExpenseSummaryS, getExpenseSummary_ne l h]
  refine ⟨rfl, ?_, rfl⟩
  intro c n s hlook
  have h0 : lookupCat ([] : List (String × ℕ × ℚ)) c = none := rfl
  rw [lookupCat_foldl_none l [] c h0] at hlook
  by_cases hf : (l.filter (fun e => e.category = c)).length = 0
  · rw [if_pos hf] at hlook
    cases hlook
  · rw [if_neg hf] at hlook
    have := Option.some.inj hlook
    exact ⟨(congrArg Prod.snd this).symm, (congrArg Prod.fst this).symm⟩

/-- Witness for C10 at a concrete one-record ledger. -/
theorem summary_totals_witness :
    (getExpenseSummary [c7Food1]).total_amount =
      round2 (([c7Food1].map (·.amount)).sum) ∧
    ((10 : ℚ) = (([c7Food1].filter (fun e => e.category = "Food")).map
        (·.amount)).sum ∧
      (1 : ℕ) = ([c7Food1].filter (fun e => e.category = "Food")).length) ∧
    (getExpenseSummaryS [c7Food1]).2 = [c7Food1] := by
  obtain ⟨h1, h2, h3⟩ := summary_totals [c7Food1] (by simp)
  exact ⟨h1, h2 "Food" 1 10 (by decide), h3⟩
